import Mathlib

/-!
# SNI proxy — verification model

Shallow embedding of the selective MitM TLS proxy implemented in
`src/orgins/main.go`, and proofs about the claims of its specification.

Modelling conventions:

* A hostname is modelled by its list of dot-separated labels
  (`"www.example.com"` becomes `["www", "example", "com"]`, the empty SNI
  becomes `[]`).  The Go code manipulates hostname strings only through
  whole-label operations — `strings.IndexByte(domain, '.')` followed by
  `domain[dot+1:]` drops the first label — so the label list carries exactly
  the structure the program uses.
* Wall-clock instants and durations are natural numbers (seconds).
* Network effects (DNS exchanges, TLS dials, file stats) are inputs to the
  embedded functions; an `Option`/`Except` error value models the
  corresponding Go error.
* `sync.Map` caches are association lists; a `Load` is `List.lookup`, a
  `Store` is a cons.
-/

namespace SNIProxy

/-- A hostname as its list of dot-separated labels. -/
abbrev Domain := List String

/-- Modelled from the library dependency `golang.org/x/net/publicsuffix`
(not part of the repository): a finite representative rule set standing for
the public suffix list.  It contains plain TLD rules and the multi-label
rule `co.uk`, which is what the spec's public-suffix boundary examples use. -/
def psRules : List Domain :=
  [["com"], ["net"], ["org"], ["io"], ["jp"], ["uk"], ["co", "uk"]]

/-- Modelled from the library dependency `publicsuffix.PublicSuffix`: the
longest rule of the list that is a label-suffix of the domain; a domain
matching no rule falls back to its last label (the implicit `*` default rule
of the public suffix list). -/
def publicSuffix (d : Domain) : Domain :=
  psRules.foldl
    (fun acc r => if r <:+ d ∧ acc.length < r.length then r else acc)
    (d.drop (d.length - 1))

/-- Modelled from the library dependency `publicsuffix.EffectiveTLDPlusOne`:
fails (`none`, the Go error) when the domain has an empty label (leading or
trailing dot, a `".."`, or the empty hostname) or when the domain is no
longer than its public suffix (the hostname *is* a public suffix); otherwise
returns the public suffix extended by one more label. -/
def etldPlusOne (d : Domain) : Option Domain :=
  if "" ∈ d then none
  else if d.length ≤ (publicSuffix d).length then none
  else some (d.drop (d.length - (publicSuffix d).length - 1))

/-- One iteration of the Go idiom `dot := strings.IndexByte(domain, '.');
domain = domain[dot+1:]` (main.go lines 83-84 and 308-309): when the
hostname contains a dot this drops the first label; when it does not
(`dot == -1`, so the slice is `domain[0:]`) the hostname is unchanged. -/
def dropLabel (d : Domain) : Domain :=
  match d with
  | _ :: b :: rest => b :: rest
  | other => other

/-- The label-stripping loop of `needsProxy` (main.go lines 82-88):
`for domain != secondary { strip one label; if the result is in the policy
set return true }; return false`.  The loop is modelled with explicit fuel;
`none` models the loop not reaching `secondary` within the given number of
iterations (the Go loop diverges when `secondary` is not reachable by
stripping labels, a situation `etldPlusOne`'s postcondition rules out — see
`needsProxy_isSome`). -/
def stripWalk (proxyAddr : List Domain) (secondary : Domain) :
    Nat → Domain → Option Bool
  | 0, domain => if domain = secondary then some false else none
  | fuel + 1, domain =>
    if domain = secondary then some false
    else
      if dropLabel domain ∈ proxyAddr then some true
      else stripWalk proxyAddr secondary fuel (dropLabel domain)

/-- `needsProxy` (main.go lines 73-90).  Exact membership in the policy set
is checked first; a public-suffix parse error is logged and answered `false`;
otherwise leading labels are stripped one at a time down to eTLD+1, checking
membership after each strip.  The result is an `Option`: `none` models
divergence of the Go loop, proved impossible in `needsProxy_isSome`. -/
def needsProxy (proxyAddr : List Domain) (domain : Domain) : Option Bool :=
  if domain ∈ proxyAddr then some true
  else
    match etldPlusOne domain with
    | none => some false
    | some secondary => stripWalk proxyAddr secondary domain.length domain

theorem publicSuffix_suffix (d : Domain) : publicSuffix d <:+ d := by
  have h : ∀ (rs : List Domain) (acc : Domain), acc <:+ d →
      (rs.foldl
        (fun acc r => if r <:+ d ∧ acc.length < r.length then r else acc)
        acc) <:+ d := by
    intro rs
    induction rs with
    | nil => intro acc hacc; exact hacc
    | cons r rs ih =>
      intro acc hacc
      simp only [List.foldl_cons]
      by_cases hc : r <:+ d ∧ acc.length < r.length
      · rw [if_pos hc]
        exact ih _ hc.1
      · rw [if_neg hc]
        exact ih _ hacc
  exact h psRules _ (List.drop_suffix _ _)

theorem etldPlusOne_suffix {d s : Domain} (h : etldPlusOne d = some s) :
    s <:+ d := by
  unfold etldPlusOne at h
  split at h
  · exact absurd h (by simp)
  · split at h
    · exact absurd h (by simp)
    · injection h with h
      subst h
      exact List.drop_suffix _ _

theorem etldPlusOne_pos {d s : Domain} (h : etldPlusOne d = some s) :
    0 < s.length := by
  unfold etldPlusOne at h
  split at h
  · exact absurd h (by simp)
  · split at h
    · exact absurd h (by simp)
    · injection h with h
      subst h
      rename_i hlen
      simp only [List.length_drop]
      omega

theorem etldPlusOne_ne_nil {d s : Domain} (h : etldPlusOne d = some s) :
    s ≠ [] := by
  intro hnil
  have := etldPlusOne_pos h
  simp [hnil] at this

/-- A suffix that is not the whole list is a suffix of the tail. -/
theorem suffix_of_ne_suffix_tail {t d : Domain} (h : t <:+ d) (hne : t ≠ d) :
    t <:+ d.tail := by
  cases d with
  | nil => exact absurd (List.suffix_nil.mp h) hne
  | cons a rest =>
    rcases List.suffix_cons_iff.mp h with h2 | h2
    · exact absurd h2 hne
    · exact h2

/-- When `sec` is a non-empty proper suffix of `d`, one stripping step is
exactly `List.tail`, and `sec` remains a suffix of the result. -/
theorem dropLabel_of_proper_suffix {sec d : Domain} (hsuf : sec <:+ d)
    (hne : sec ≠ d) (hnil : sec ≠ []) :
    dropLabel d = d.tail ∧ sec <:+ d.tail ∧ d.tail.length + 1 = d.length := by
  have hlt : sec.length < d.length := by
    rcases Nat.lt_or_ge sec.length d.length with h | h
    · exact h
    · exact absurd (hsuf.eq_of_length (Nat.le_antisymm hsuf.length_le h)) hne
  have hpos : 0 < sec.length := List.length_pos.mpr hnil
  cases d with
  | nil => exact absurd (List.suffix_nil.mp hsuf) hnil
  | cons a rest =>
    cases rest with
    | nil =>
      have h1 : sec.length < 1 := by simpa using hlt
      omega
    | cons b rest2 =>
      exact ⟨rfl, suffix_of_ne_suffix_tail hsuf hne, by simp⟩

theorem stripWalk_isSome {pa : List Domain} {sec : Domain} (hnil : sec ≠ []) :
    ∀ (fuel : Nat) (d : Domain), sec <:+ d → d.length ≤ sec.length + fuel →
      (stripWalk pa sec fuel d).isSome := by
  intro fuel
  induction fuel with
  | zero =>
    intro d hsuf hlen
    have hd : d = sec :=
      (hsuf.eq_of_length (Nat.le_antisymm hsuf.length_le (by omega))).symm
    simp [stripWalk, hd]
  | succ f ih =>
    intro d hsuf hlen
    by_cases hd : d = sec
    · simp [stripWalk, hd]
    · obtain ⟨hdrop, hsuf2, hlen2⟩ :=
        dropLabel_of_proper_suffix hsuf (fun h => hd h.symm) hnil
      rw [stripWalk, if_neg hd]
      by_cases hc : dropLabel d ∈ pa
      · rw [if_pos hc]; simp
      · rw [if_neg hc, hdrop]
        exact ih d.tail hsuf2 (by omega)

/-- C7: for every hostname the domain matcher terminates — the
label-stripping walk reaches eTLD+1 after finitely many strips, even when no
intermediate form matches the policy set (`none` being the model of the Go
loop diverging, the matcher never returns `none`). -/
theorem needsProxy_isSome (pa : List Domain) (d : Domain) :
    (needsProxy pa d).isSome := by
  unfold needsProxy
  split
  · simp
  · match hm : etldPlusOne d with
    | none => simp
    | some sec =>
      exact stripWalk_isSome (etldPlusOne_ne_nil hm) d.length d
        (etldPlusOne_suffix hm) (by omega)

theorem stripWalk_eq_true_iff {pa : List Domain} {sec : Domain}
    (hnil : sec ≠ []) :
    ∀ (fuel : Nat) (d : Domain), sec <:+ d → d.length ≤ sec.length + fuel →
      (stripWalk pa sec fuel d = some true ↔
        ∃ t, sec <:+ t ∧ t <:+ d ∧ t ≠ d ∧ t ∈ pa) := by
  intro fuel
  induction fuel with
  | zero =>
    intro d hsuf hlen
    have hd : d = sec :=
      (hsuf.eq_of_length (Nat.le_antisymm hsuf.length_le (by omega))).symm
    subst hd
    rw [stripWalk, if_pos rfl]
    constructor
    · intro h; exact absurd h (by simp)
    · rintro ⟨t, ht1, ht2, ht3, _⟩
      exact absurd (ht2.eq_of_length
        (Nat.le_antisymm ht2.length_le ht1.length_le)) ht3
  | succ f ih =>
    intro d hsuf hlen
    by_cases hd : d = sec
    · subst hd
      rw [stripWalk, if_pos rfl]
      constructor
      · intro h; exact absurd h (by simp)
      · rintro ⟨t, ht1, ht2, ht3, _⟩
        exact absurd (ht2.eq_of_length
          (Nat.le_antisymm ht2.length_le ht1.length_le)) ht3
    · obtain ⟨hdrop, hsuf2, hlen2⟩ :=
        dropLabel_of_proper_suffix hsuf (fun h => hd h.symm) hnil
      rw [stripWalk, if_neg hd, hdrop]
      have htail : d.tail <:+ d := List.tail_suffix d
      have htailne : d.tail ≠ d := by
        intro h
        have := congrArg List.length h
        omega
      by_cases hc : d.tail ∈ pa
      · rw [if_pos hc]
        constructor
        · intro _
          exact ⟨d.tail, hsuf2, htail, htailne, hc⟩
        · intro _; rfl
      · rw [if_neg hc]
        rw [ih d.tail hsuf2 (by omega)]
        constructor
        · rintro ⟨t, ht1, ht2, ht3, ht4⟩
          refine ⟨t, ht1, ht2.trans htail, ?_, ht4⟩
          intro h
          subst h
          have := ht2.length_le
          omega
        · rintro ⟨t, ht1, ht2, ht3, ht4⟩
          refine ⟨t, ht1, suffix_of_ne_suffix_tail ht2 ht3, ?_, ht4⟩
          intro h
          subst h
          exact hc ht4

/-- C6 (amended): the matcher answers `true` exactly when the hostname
itself is in the policy set, or public-suffix parsing succeeds with base
`sec = eTLD+1(h)` and some label-suffix `t` of `h` extending `sec`
(`sec <:+ t <:+ h`, including `sec` itself) is in the policy set.  In
particular, when public-suffix parsing fails the matcher returns `false`
*unless the hostname itself is in the set*: the exact-membership check of
main.go line 74 precedes the parse of line 77. -/
theorem needsProxy_eq_true_iff (pa : List Domain) (d : Domain) :
    needsProxy pa d = some true ↔
      d ∈ pa ∨ ∃ sec t, etldPlusOne d = some sec ∧ sec <:+ t ∧ t <:+ d ∧
        t ∈ pa := by
  unfold needsProxy
  by_cases hc : d ∈ pa
  · rw [if_pos hc]
    simp [hc]
  · rw [if_neg hc]
    match hm : etldPlusOne d with
    | none =>
      constructor
      · intro h; exact absurd h (by simp)
      · rintro (h | ⟨sec, t, hsec, _⟩)
        · exact absurd h hc
        · exact absurd hsec (by simp)
    | some sec =>
      rw [stripWalk_eq_true_iff (etldPlusOne_ne_nil hm) d.length d
        (etldPlusOne_suffix hm) (by omega)]
      constructor
      · rintro ⟨t, ht1, ht2, _, ht4⟩
        exact Or.inr ⟨sec, t, rfl, ht1, ht2, ht4⟩
      · rintro (h | ⟨sec2, t, hsec2, ht1, ht2, ht4⟩)
        · exact absurd h hc
        · injection hsec2 with hsec2
          subst hsec2
          refine ⟨t, ht1, ht2, ?_, ht4⟩
          intro h
          subst h
          exact hc ht4

/-- C6 counterexample: the claim asserts that a public-suffix parse failure
makes the matcher return `false`; but the exact-membership check runs before
the parse, so a single-label hostname that is itself a policy entry is
matched even though `etldPlusOne` fails on it. -/
theorem needsProxy_psl_failure_cex :
    needsProxy [["foo"]] ["foo"] = some true ∧
      etldPlusOne ["foo"] = none := by decide

/-! ## Certificate mint (`getCertificate`, main.go lines 289-356) -/

/-- A leaf certificate as minted by `getCertificate`: common name, SAN list
(`{"*." + cn, cn}`, the wildcard being the extra label `*`), and a serial
that stands for the fresh random serial number and ECDSA key of each mint —
distinct mints yield distinct certificates. -/
structure MintedCert where
  cn : Domain
  dnsNames : List Domain
  serial : Nat
deriving DecidableEq

/-- The `cacheCert` sync.Map together with the source of fresh serials. -/
structure CertState where
  cache : List (Domain × MintedCert)
  nextSerial : Nat
deriving DecidableEq

def CertState.empty : CertState := ⟨[], 0⟩

/-- `getCertificate` (main.go lines 289-356).  An empty SNI is an error; a
cache hit on the exact `ServerName` or on the computed `cn` returns the
cached leaf; a public-suffix error is surfaced; otherwise a fresh leaf with
common name `cn` is minted and cached under `cn`.  Note the computation of
`cn` when `ServerName ≠ eTLD+1`: the code drops exactly one label
(`strings.IndexByte` + `domain[dot+1:]`, lines 308-309), it does not use the
`secondary` value.  Key generation and signing are modelled as always
succeeding (their Go failure paths return the error without touching any
state). -/
def getCertificate (st : CertState) (serverName : Domain) :
    Except String (MintedCert × CertState) :=
  if serverName = [] then .error "no SNI info"
  else
    match st.cache.lookup serverName with
    | some cert => .ok (cert, st)
    | none =>
      match etldPlusOne serverName with
      | none => .error "invalid hostname"
      | some secondary =>
        let cn := if serverName = secondary then secondary
                  else dropLabel serverName
        match st.cache.lookup cn with
        | some cert => .ok (cert, st)
        | none =>
          let cert : MintedCert := ⟨cn, [["*"] ++ cn, cn], st.nextSerial⟩
          .ok (cert, ⟨(cn, cert) :: st.cache, st.nextSerial + 1⟩)

/-- Two consecutive mints from a given state; used to observe the cache
behaviour across distinct SNIs. -/
def mintPair (s1 s2 : Domain) : Option (MintedCert × MintedCert) :=
  match getCertificate CertState.empty s1 with
  | .error _ => none
  | .ok (c1, st1) =>
    match getCertificate st1 s2 with
    | .error _ => none
    | .ok (c2, _) => some (c1, c2)

/-- C1 counterexample: for `ServerName = a.b.example.com` (four labels, so
not one label above its eTLD+1 `example.com`) the minted subject/cache key
is `b.example.com`, not the eTLD+1; consequently the two SNIs
`a.b.example.com` and `x.example.com`, which share the eTLD+1
`example.com`, do **not** share a cached leaf: the second mint returns a
different certificate. -/
theorem getCertificate_cn_cex :
    etldPlusOne ["a", "b", "example", "com"] = some ["example", "com"] ∧
    etldPlusOne ["x", "example", "com"] = some ["example", "com"] ∧
    (getCertificate CertState.empty ["a", "b", "example", "com"]).toOption.map
        (fun p => p.1.cn) = some ["b", "example", "com"] ∧
    (["b", "example", "com"] : Domain) ≠ ["example", "com"] ∧
    (mintPair ["a", "b", "example", "com"] ["x", "example", "com"]).map
        (fun p => decide (p.1 = p.2)) = some false := by decide

/-- C1 (amended): when `ServerName ≠ eTLD+1(ServerName)` the mint computes
the subject and cache key `cn` by dropping the **first label** of
`ServerName` (which coincides with the eTLD+1 only when `ServerName` is
exactly one label longer); consequently two SNIs whose first-label
strippings coincide return the same cached leaf after the first mint. -/
theorem getCertificate_cn_spec {st : CertState} {s1 sec1 : Domain}
    (hne : s1 ≠ []) (hmiss : st.cache.lookup s1 = none)
    (hsec : etldPlusOne s1 = some sec1) (hnesec : s1 ≠ sec1)
    (hcnMiss : st.cache.lookup (dropLabel s1) = none) :
    ∃ c1 st1, getCertificate st s1 = .ok (c1, st1) ∧
      c1.cn = dropLabel s1 ∧
      st1.cache.lookup (dropLabel s1) = some c1 ∧
      ∀ s2 sec2, s2 ≠ [] → st1.cache.lookup s2 = none →
        etldPlusOne s2 = some sec2 → s2 ≠ sec2 →
        dropLabel s2 = dropLabel s1 →
        getCertificate st1 s2 = .ok (c1, st1) := by
  refine ⟨⟨dropLabel s1, [["*"] ++ dropLabel s1, dropLabel s1], st.nextSerial⟩,
    ⟨(dropLabel s1, ⟨dropLabel s1, [["*"] ++ dropLabel s1, dropLabel s1],
      st.nextSerial⟩) :: st.cache, st.nextSerial + 1⟩, ?_, rfl, ?_, ?_⟩
  · unfold getCertificate
    rw [if_neg hne, hmiss, hsec]
    simp only [if_neg hnesec]
    rw [hcnMiss]
  · simp [List.lookup]
  · intro s2 sec2 hne2 hmiss2 hsec2 hnesec2 hdropEq
    unfold getCertificate
    rw [if_neg hne2, hmiss2, hsec2]
    simp only [if_neg hnesec2]
    rw [hdropEq]
    simp [List.lookup]

/-- C1 amended-claim witness at concrete inputs: `a.b.example.com` mints a
leaf with subject `b.example.com`, and `x.b.example.com` — same first-label
stripping — then reuses that cached leaf. -/
theorem getCertificate_cn_spec_witness :
    ∃ c1 st1,
      getCertificate CertState.empty ["a", "b", "example", "com"] =
        .ok (c1, st1) ∧
      c1.cn = dropLabel ["a", "b", "example", "com"] ∧
      st1.cache.lookup (dropLabel ["a", "b", "example", "com"]) = some c1 ∧
      ∀ s2 sec2, s2 ≠ [] → st1.cache.lookup s2 = none →
        etldPlusOne s2 = some sec2 → s2 ≠ sec2 →
        dropLabel s2 = dropLabel ["a", "b", "example", "com"] →
        getCertificate st1 s2 = .ok (c1, st1) :=
  @getCertificate_cn_spec CertState.empty ["a", "b", "example", "com"]
    ["example", "com"] (by decide) (by decide) (by decide) (by decide)
    (by decide)

/-! ## Inbound connection: handshake, certificate service, policy check
(`forwardTls`, main.go lines 141-157, and `main`, line 447-449) -/

/-- Outcome of the accept phase of one inbound connection. -/
inductive ConnOutcome
  | closedHandshakeErr  -- handshake failed; connection closed (line 148-151)
  | closedNoProxy       -- policy miss: logged and closed (lines 153-156)
  | proceed             -- in policy: continues to resolve/dial/splice
deriving DecidableEq

/-- The handshake-and-policy-check prefix of `forwardTls`, together with the
certificate selection the handshake performs: `conn.Handshake()` (line 148)
invokes `getCertificate` on the client's SNI — `main` installs it as
`tls.Config.GetCertificate` — and serves the returned leaf to the client
*before* `forwardTls` ever consults `needsProxy` (line 153).  Returns the
certificate served to the client (if certificate selection succeeded), the
outcome, and the updated cert-cache state.  The outer `none` models
divergence of the matcher, impossible by `needsProxy_isSome`; handshake
failures other than certificate selection also end in
`closedHandshakeErr` and are not modelled separately. -/
def connAccept (pa : List Domain) (st : CertState) (sni : Domain) :
    Option (Option MintedCert × ConnOutcome × CertState) :=
  match getCertificate st sni with
  | .error _ => some (none, .closedHandshakeErr, st)
  | .ok (cert, st1) =>
    match needsProxy pa sni with
    | none => none
    | some true => some (some cert, .proceed, st1)
    | some false => some (some cert, .closedNoProxy, st1)

/-- C2 counterexample: with an **empty** policy set, an inbound connection
for `www.example.com` is indeed closed after its policy miss — but the
handshake has already served a freshly minted (forged) leaf to the client,
because `getCertificate` never consults the policy. -/
theorem connAccept_serves_forged_cex :
    needsProxy [] ["www", "example", "com"] = some false ∧
    (connAccept [] CertState.empty ["www", "example", "com"]).map
        (fun r => (r.1.isSome, r.2.1)) =
      some (true, ConnOutcome.closedNoProxy) := by decide

/-- C2 (amended): for every inbound TLS connection whose SNI is not matched
by the domain matcher, the engine logs and closes the connection without
proceeding to resolve or splice — but when certificate selection succeeded,
the inbound handshake has already served the locally minted leaf for that
host to the client (the mint performs no policy check). -/
theorem connAccept_noProxy {pa : List Domain} {st st1 : CertState}
    {sni : Domain} {cert : MintedCert}
    (hcert : getCertificate st sni = .ok (cert, st1))
    (hpol : needsProxy pa sni = some false) :
    connAccept pa st sni = some (some cert, .closedNoProxy, st1) := by
  unfold connAccept
  rw [hcert, hpol]

/-- C2 amended-claim witness: concrete run with the empty policy. -/
theorem connAccept_noProxy_witness :
    connAccept [] CertState.empty ["www", "example", "com"] =
      some (some ⟨["example", "com"],
        [["*", "example", "com"], ["example", "com"]], 0⟩,
        .closedNoProxy,
        ⟨[(["example", "com"], ⟨["example", "com"],
          [["*", "example", "com"], ["example", "com"]], 0⟩)], 1⟩) :=
  connAccept_noProxy rfl (by decide)

/-! ## Secure resolver (`resolveRealIP`, main.go lines 92-139) -/

/-- Duration constant `cacheAddrTtl = 5 * time.Minute`, in seconds. -/
def cacheAddrTtl : Nat := 5 * 60

/-- One entry of the resolution cache (`Resolv`, main.go lines 64-67). -/
structure Resolv where
  addr : String
  expire : Nat
deriving DecidableEq

/-- `Resolv.Expired` (main.go lines 69-71): `r.expire.Before(time.Now())`. -/
def Resolv.Expired (r : Resolv) (now : Nat) : Bool := r.expire < now

/-- `net.JoinHostPort` (standard library): an IPv6 literal is bracketed. -/
def joinHostPort (host port : String) : String :=
  if host.data.contains ':' then "[" ++ host ++ "]:" ++ port
  else host ++ ":" ++ port

/-- An answer record of an upstream DNS response, as inspected by the two
type switches of `resolveRealIP` (`*dns.AAAA` at line 115, `*dns.A` at line
131); `other` stands for every other record type (CNAME, ...), which the
switches skip. -/
inductive UpstreamAns
  | aaaa (ip : String)
  | a (ip : String)
  | other
deriving DecidableEq

/-- The AAAA collection loop (main.go lines 114-121). -/
def aaaaTargets (now : Nat) (ans : List UpstreamAns) : List Resolv :=
  ans.filterMap (fun r =>
    match r with
    | .aaaa ip => some ⟨joinHostPort ip "443", now + cacheAddrTtl⟩
    | _ => none)

/-- The A collection loop (main.go lines 130-137). -/
def aTargets (now : Nat) (ans : List UpstreamAns) : List Resolv :=
  ans.filterMap (fun r =>
    match r with
    | .a ip => some ⟨joinHostPort ip "443", now + cacheAddrTtl⟩
    | _ => none)

/-- `resolveRealIP` (main.go lines 92-139).  The two upstream exchanges over
the TLS-protected resolver — AAAA first, then A — are inputs: `.error` is a
network error from `cli.Exchange`, `.ok` carries the answer section.  On an
AAAA-exchange error the function returns with `ret` still nil; on an
A-exchange error it returns with whatever the AAAA loop already collected
(main.go lines 125-129: `return` after the AAAA loop has run). -/
def resolveRealIP (now : Nat)
    (exchAAAA exchA : Except Unit (List UpstreamAns)) : List Resolv :=
  match exchAAAA with
  | .error _ => []
  | .ok ansAAAA =>
    match exchA with
    | .error _ => aaaaTargets now ansAAAA
    | .ok ansA => aaaaTargets now ansAAAA ++ aTargets now ansA

/-- C5 counterexample: when the AAAA exchange succeeds with one record and
the subsequent A exchange fails with a network error, `resolveRealIP`
returns the non-empty AAAA-derived target list, not the empty list the
claim requires on "any network error in either exchange". -/
theorem resolveRealIP_partial_cex :
    resolveRealIP 0 (.ok [.aaaa "2001:db8::1"]) (.error ()) =
      [⟨"[2001:db8::1]:443", 300⟩] ∧
    ([⟨"[2001:db8::1]:443", 300⟩] : List Resolv) ≠ ([] : List Resolv) := by
  decide

/-- C5 (amended): the resolver issues the AAAA exchange first and the A
exchange second, aggregates the records into `[ip]:443` dial targets in the
order returned with the AAAA targets first, and returns the empty list on a
network error in the **AAAA** exchange; a network error in the **A**
exchange instead returns the targets already collected from the AAAA
answer. -/
theorem resolveRealIP_spec (now : Nat) (ansAAAA ansA : List UpstreamAns)
    (e e2 : Unit) :
    resolveRealIP now (.error e) (.ok ansA) = [] ∧
    resolveRealIP now (.error e) (.error e2) = [] ∧
    resolveRealIP now (.ok ansAAAA) (.error e) = aaaaTargets now ansAAAA ∧
    resolveRealIP now (.ok ansAAAA) (.ok ansA) =
      aaaaTargets now ansAAAA ++ aTargets now ansA := by
  exact ⟨rfl, rfl, rfl, rfl⟩

/-! ## DNS responder (`forwardDns`, main.go lines 236-287) -/

/-- Splits a character list at dots: the label decomposition of a DNS name
string, used to bridge the string world of the DNS server to the
label-list world of the matcher. -/
def splitDotAux : List Char → List (List Char)
  | [] => [[]]
  | c :: rest =>
    match splitDotAux rest with
    | [] => [[c]]
    | h :: t => if c = '.' then [] :: h :: t else (c :: h) :: t

/-- A hostname string viewed as its `Domain` of dot-separated labels. -/
def toDomain (s : String) : Domain := (splitDotAux s.data).map String.mk

/-- The Go slice `domain[:len(domain)-1]` (main.go line 243), stripping the
trailing dot of a fully qualified DNS name. -/
def dropLastChar (s : String) : String := String.mk s.data.dropLast

/-- DNS wire constants from the `miekg/dns` package. -/
def typeA : Nat := 1

def typeAAAA : Nat := 28

def classINET : Nat := 1

structure DnsQuestion where
  name : String
  qtype : Nat
  qclass : Nat
deriving DecidableEq

/-- The resource-record data `forwardDns` can synthesize: `net.IPv4(...)` or
`net.IPv6loopback` (= `::1`). -/
inductive RData
  | ipv4 (a b c d : Nat)
  | ipv6loopback
deriving DecidableEq

structure RRHeader where
  name : String
  rrtype : Nat
  rclass : Nat
  ttl : Nat
deriving DecidableEq

structure DnsRR where
  hdr : RRHeader
  rdata : RData
deriving DecidableEq

structure DnsMsg where
  ident : Nat
  response : Bool
  authoritative : Bool
  question : List DnsQuestion
  answer : List DnsRR
deriving DecidableEq

/-- `msg.SetReply(m)` of `miekg/dns`: a fresh reply message carrying the
request's id and question section. -/
def setReply (m : DnsMsg) : DnsMsg :=
  { ident := m.ident, response := true, authoritative := false,
    question := m.question, answer := [] }

/-- What `forwardDns` does with an incoming message. -/
inductive DnsAction
  | fatal               -- log.Fatal on a multi-question query (line 238)
  | outOfRange          -- m.Question[0] panics on an empty question slice
  | reply (msg : DnsMsg)  -- w.WriteMsg of a locally synthesized answer
  | forward             -- fall through to the cleartext upstream exchange
deriving DecidableEq

/-- `forwardDns` (main.go lines 236-287) up to the point where the message
is answered locally, forwarded upstream, or the process dies.  More than
one question is `log.Fatal`; zero questions make the unconditional
`m.Question[0]` access panic (index out of range); a single in-policy A or
AAAA question gets a synthesized authoritative reply; anything else is
forwarded to the cleartext upstream.  The outer `none` models divergence of
the matcher, impossible by `needsProxy_isSome`. -/
def forwardDns (pa : List Domain) (m : DnsMsg) : Option DnsAction :=
  if m.question.length > 1 then some .fatal
  else
    match m.question with
    | [] => some .outOfRange
    | q :: _ =>
      if q.qtype = typeA ∨ q.qtype = typeAAAA then
        match needsProxy pa (toDomain (dropLastChar q.name)) with
        | none => none
        | some true =>
          let hdr : RRHeader :=
            { name := q.name, rrtype := q.qtype, rclass := classINET,
              ttl := 60 }
          some (.reply
            (if q.qtype = typeA then
              { setReply m with
                authoritative := true
                answer := [⟨hdr, .ipv4 127 0 0 1⟩] }
            else
              { setReply m with
                authoritative := true
                answer := [⟨hdr, .ipv6loopback⟩] }))
        | some false => some .forward
      else some .forward

/-- C8: a single-question A or AAAA query whose name (trailing dot
stripped) is matched by the policy gets a reply with exactly one answer —
`127.0.0.1` for A, `::1` for AAAA — carrying TTL 60, the Authoritative bit,
and the request's question section unchanged. -/
theorem forwardDns_inPolicy (pa : List Domain) (m : DnsMsg)
    (q : DnsQuestion) (hq : m.question = [q])
    (ht : q.qtype = typeA ∨ q.qtype = typeAAAA)
    (hp : needsProxy pa (toDomain (dropLastChar q.name)) = some true) :
    forwardDns pa m = some (.reply
      { ident := m.ident, response := true, authoritative := true,
        question := m.question,
        answer := [⟨⟨q.name, q.qtype, classINET, 60⟩,
          if q.qtype = typeA then .ipv4 127 0 0 1
          else .ipv6loopback⟩] }) := by
  unfold forwardDns
  rw [hq]
  simp only [List.length_cons, List.length_nil, gt_iff_lt, Nat.lt_irrefl,
    if_false]
  rw [if_pos ht, hp]
  unfold setReply
  by_cases hA : q.qtype = typeA
  · rw [if_pos hA, if_pos hA, hq]
  · rw [if_neg hA, if_neg hA, hq]

/-- C8 witness: policy `{example.com}`, query `A www.example.com.`. -/
theorem forwardDns_inPolicy_witness :
    forwardDns [["example", "com"]]
      ⟨7, false, false, [⟨"www.example.com.", 1, 1⟩], []⟩ =
      some (.reply
        { ident := 7, response := true, authoritative := true,
          question := [⟨"www.example.com.", 1, 1⟩],
          answer := [⟨⟨"www.example.com.", 1, 1, 60⟩,
            .ipv4 127 0 0 1⟩] }) := by
  have h := forwardDns_inPolicy [["example", "com"]]
    ⟨7, false, false, [⟨"www.example.com.", 1, 1⟩], []⟩
    ⟨"www.example.com.", 1, 1⟩ rfl (by decide) (by decide)
  simpa using h

/-- C10: a DNS message with an empty question section passes the
`len(m.Question) > 1` check and then panics on the unconditional
`m.Question[0]` access — no response and no handled error. -/
theorem forwardDns_emptyQuestion (pa : List Domain) (m : DnsMsg)
    (h : m.question = []) : forwardDns pa m = some .outOfRange := by
  unfold forwardDns
  rw [h]
  simp

/-- C10 witness: the concrete empty-question message. -/
theorem forwardDns_emptyQuestion_witness :
    forwardDns [] ⟨0, false, false, [], []⟩ = some .outOfRange :=
  forwardDns_emptyQuestion [] ⟨0, false, false, [], []⟩ rfl

/-! ## Policy store and hot reload (`updateConfig` / `pollingFileChange`,
main.go lines 358-403) -/

/-- `strings.TrimSpace` (standard library), on the character list. -/
def trimSpace (s : String) : String :=
  String.mk
    (((s.data.dropWhile Char.isWhitespace).reverse.dropWhile
      Char.isWhitespace).reverse)

/-- The scanner loop of `updateConfig` (main.go lines 370-376): every line
is trimmed and, when non-empty, becomes an entry of the new policy set
(`newMap[text] = struct{}{}`; set membership is list membership here). -/
def parseConfig (lines : List String) : List String :=
  (lines.map trimSpace).filter (fun t => t ≠ "")

/-- Result of one configuration (re)load attempt. -/
inductive ConfigOutcome
  | fatal                       -- log.Fatal: the process exits
  | updated (pa : List String)  -- proxyAddr = newMap (line 377)
deriving DecidableEq

/-- `updateConfig` (main.go lines 358-378).  The result of `os.Open` is an
input, `none` being an open error; a failing open is `log.Fatal`
**unconditionally** (line 361) — there is no recovery branch. -/
def updateConfig (openResult : Option (List String)) : ConfigOutcome :=
  match openResult with
  | none => .fatal
  | some lines => .updated (parseConfig lines)

/-- A `(size, mtime)` observation from `os.Stat`. -/
structure FileStat where
  size : Nat
  modTime : Nat
deriving DecidableEq

/-- Outcome of one iteration of the polling loop. -/
inductive PollOutcome
  | fatal                                      -- log.Fatal: process exits
  | keep (pa : List String) (stat : FileStat)  -- no change observed
  | reloaded (pa : List String) (stat : FileStat)  -- updateConfig ran
deriving DecidableEq

/-- One post-startup iteration of the polling goroutine of
`pollingFileChange` (main.go lines 387-402).  Inputs: the last observed
stat, the current `os.Stat` result (`none` = stat error), the `os.Open`
result consumed by `updateConfig` when a change is detected, and the
currently active policy set.  A stat error is `log.Fatal` (line 393) even
though startup already succeeded. -/
def pollStep (lastStat : FileStat) (statResult : Option FileStat)
    (openResult : Option (List String)) (active : List String) :
    PollOutcome :=
  match statResult with
  | none => .fatal
  | some st =>
    if st.size ≠ lastStat.size ∨ st.modTime ≠ lastStat.modTime then
      match updateConfig openResult with
      | .fatal => .fatal
      | .updated pa => .reloaded pa st
    else .keep active lastStat

/-- The startup part of `pollingFileChange` (main.go lines 381-385): initial
stat then initial load; either failure is `log.Fatal` (`none` here). -/
def startupLoad (statResult : Option FileStat)
    (openResult : Option (List String)) : Option (List String × FileStat) :=
  match statResult with
  | none => none
  | some st =>
    match updateConfig openResult with
    | .fatal => none
    | .updated pa => some (pa, st)

/-- C4 counterexample: after a successful startup, a reload attempt whose
`os.Stat` fails does **not** retain the last good policy set — the step is
`log.Fatal`, i.e. the process exits.  (A failing `os.Open` behaves the
same: `updateConfig` is fatal on it at every call site.) -/
theorem pollStep_statFail_cex :
    pollStep ⟨10, 5⟩ none (some ["a.com"]) ["a.com"] = .fatal ∧
    pollStep ⟨10, 5⟩ (some ⟨11, 6⟩) none ["a.com"] = .fatal ∧
    PollOutcome.fatal ≠ .keep ["a.com"] ⟨10, 5⟩ := by decide

/-- C4 (amended): a failure to stat or open the configuration file is fatal
at startup **and** on every later reload attempt: the polling loop and
`updateConfig` call `log.Fatal`, so the process exits instead of logging
and retaining the last good set. -/
theorem configFailure_always_fatal (lastStat st : FileStat)
    (openResult : Option (List String)) (active : List String)
    (hchange : st.size ≠ lastStat.size ∨ st.modTime ≠ lastStat.modTime) :
    pollStep lastStat none openResult active = .fatal ∧
    pollStep lastStat (some st) none active = .fatal ∧
    startupLoad none openResult = none ∧
    startupLoad (some st) none = none := by
  refine ⟨rfl, ?_, rfl, rfl⟩
  show (if st.size ≠ lastStat.size ∨ st.modTime ≠ lastStat.modTime then
      match updateConfig none with
      | .fatal => PollOutcome.fatal
      | .updated pa => PollOutcome.reloaded pa st
    else PollOutcome.keep active lastStat) = PollOutcome.fatal
  rw [if_pos hchange]
  rfl

/-- C4 amended-claim witness at a concrete changed stat. -/
theorem configFailure_always_fatal_witness :
    pollStep ⟨10, 5⟩ none (some ["a.com"]) ["a.com"] = .fatal ∧
    pollStep ⟨10, 5⟩ (some ⟨11, 5⟩) none ["a.com"] = .fatal ∧
    startupLoad none (some ["a.com"]) = none ∧
    startupLoad (some ⟨11, 5⟩) none = none :=
  configFailure_always_fatal ⟨10, 5⟩ ⟨11, 5⟩ (some ["a.com"]) ["a.com"]
    (by decide)

/-! ## Case of stored strings (policy entries and resolve-cache keys) -/

/-- ASCII lowercasing — the spec's "lowercased". -/
def lowerAscii (s : String) : String :=
  String.mk (s.data.map (fun c =>
    if 'A' ≤ c ∧ c ≤ 'Z' then Char.ofNat (c.toNat + 32) else c))

/-- The dial loop of `forwardTls` (main.go lines 204-210): each resolved
target is tried in order; the first whose TLS dial succeeds is kept. -/
def dialLoop (dialOk : String → Bool) : List Resolv → Option Resolv
  | [] => none
  | a :: rest => if dialOk a.addr then some a else dialLoop dialOk rest

/-- The resolve-and-dial critical section of `forwardTls` (main.go lines
191-216), executed under the per-host lock.  `cache` is the `cacheResolv`
sync.Map as an association list, keyed — exactly as in the source — by the
`ServerName` string of the inbound handshake (line 152); `resolved` is the
list `resolveRealIP` returned; `dialOk` tells which dial targets accept an
outbound TLS connection.  Returns the chosen target (if any) and the
updated cache: `cacheResolv.Store(host, addr)` on the first successful
dial.  `resolveRetryPath` is the path taken when there is no usable cached
target (main.go lines 197-216): a nil resolver result warns and returns;
otherwise each target is dialled in order and the first success is stored
under `host`. -/
def resolveRetryPath (cache : List (String × Resolv)) (host : String)
    (resolved : List Resolv) (dialOk : String → Bool) :
    Option Resolv × List (String × Resolv) :=
  if resolved.isEmpty then (none, cache)
  else
    match dialLoop dialOk resolved with
    | some a => (some a, (host, a) :: cache)
    | none => (none, cache)

def resolveSection (now : Nat) (cache : List (String × Resolv))
    (host : String) (resolved : List Resolv) (dialOk : String → Bool) :
    Option Resolv × List (String × Resolv) :=
  match cache.lookup host with
  | some r =>
    if ¬ r.Expired now ∧ dialOk r.addr then (some r, cache)
    else resolveRetryPath cache host resolved dialOk
  | none => resolveRetryPath cache host resolved dialOk

/-- C9 counterexample: the configuration line `Example.COM` is stored in
the policy set verbatim — `updateConfig` never lowercases — so the stored
entry differs from its own lowercasing. -/
theorem parseConfig_not_lowercased_cex :
    parseConfig ["Example.COM"] = ["Example.COM"] ∧
    lowerAscii "Example.COM" ≠ "Example.COM" := by decide

/-- C9 (amended): the policy set holds exactly the trimmed non-empty lines
of the configuration file **verbatim** (no lowercasing), and every key the
resolve cache gains is the SNI hostname exactly as received from the
handshake (no lowercasing). -/
theorem storedStrings_verbatim :
    (∀ (lines : List String) (e : String), e ∈ parseConfig lines →
      ∃ l ∈ lines, e = trimSpace l) ∧
    (∀ (now : Nat) (cache : List (String × Resolv)) (host : String)
      (resolved : List Resolv) (dialOk : String → Bool)
      (k : String) (r : Resolv),
      (k, r) ∈ (resolveSection now cache host resolved dialOk).2 →
      (k, r) ∈ cache ∨ k = host) := by
  constructor
  · intro lines e he
    unfold parseConfig at he
    obtain ⟨hmem, _⟩ := List.mem_filter.mp he
    obtain ⟨l, hl, hle⟩ := List.mem_map.mp hmem
    exact ⟨l, hl, hle.symm⟩
  · intro now cache host resolved dialOk k r hmem
    have hretry : (k, r) ∈ (resolveRetryPath cache host resolved dialOk).2 →
        (k, r) ∈ cache ∨ k = host := by
      intro hm
      unfold resolveRetryPath at hm
      split at hm
      · exact Or.inl hm
      · split at hm
        · rcases List.mem_cons.mp hm with h | h
          · exact Or.inr (congrArg Prod.fst h)
          · exact Or.inl h
        · exact Or.inl hm
    unfold resolveSection at hmem
    split at hmem
    · split at hmem
      · exact Or.inl hmem
      · exact hretry hmem
    · exact hretry hmem

/-- C9 amended-claim witness: a stored entry really is a trimmed input
line, at a concrete configuration. -/
theorem storedStrings_verbatim_witness :
    ∃ l ∈ ["  Example.COM  "], "Example.COM" = trimSpace l :=
  storedStrings_verbatim.1 ["  Example.COM  "] "Example.COM" (by decide)

/-! ## Two concurrent connections to one host (C3)

An interleaving model of two connection tasks running `forwardTls` for the
same hostname from cold caches, in the scenario of the claim: resolution
returns usable targets and dialling them succeeds.  Each program counter
value is one atomic region of the code; atomicity boundaries are the
individual `sync.Map` / mutex operations, which is exactly the granularity
the Go memory model guarantees for them.

* `certCheck`: the cache lookups of `getCertificate` (main.go lines 294 and
  312) during the inbound handshake.  Only `cn` is ever stored and both
  tasks carry the same SNI, so the two `Load`s miss exactly when the leaf
  for `cn` is absent — one boolean `certCached` suffices.
* `mint`: key generation, `x509.CreateCertificate` and
  `cacheCert.Store(cn, cert)` (lines 316-354), counted by `mintCount`.
* `acquire`: `resolvLock.LoadOrStore(host, lock)` + `lock.Lock()` (lines
  186-189.  `LoadOrStore` hands both tasks the same mutex; a task whose
  `Lock` finds the mutex held stays at `acquire`).
* `cacheCheck`: `cacheResolv.Load(host)` + the `Expired` test (line 191).
* `resolve`: `resolveRealIP(host)` (line 198) — the outbound DNS
  resolution, counted by `dnsCount`.
* `store`: the successful dial and `cacheResolv.Store(host, addr)` (lines
  204-210).
* `unlock`: `lock.Unlock()` (line 217).
* `done`: the splice phase, outside this model. -/

inductive PC
  | certCheck
  | mint
  | acquire
  | cacheCheck
  | resolve
  | store
  | unlock
  | done
deriving DecidableEq

/-- Shared state of the scenario: the per-host mutex, whether the leaf
certificate (under `cn`) and the resolution (under the host) are cached,
and the two event counters the claim is about. -/
structure Shared where
  lockHeld : Bool
  certCached : Bool
  addrCached : Bool
  mintCount : Nat
  dnsCount : Nat
deriving DecidableEq

/-- One atomic step of a connection task. -/
def stepTask (s : Shared) (pc : PC) : Shared × PC :=
  match pc with
  | .certCheck => if s.certCached then (s, .acquire) else (s, .mint)
  | .mint =>
    ({ s with certCached := true, mintCount := s.mintCount + 1 }, .acquire)
  | .acquire =>
    if s.lockHeld then (s, .acquire)
    else ({ s with lockHeld := true }, .cacheCheck)
  | .cacheCheck => if s.addrCached then (s, .unlock) else (s, .resolve)
  | .resolve => ({ s with dnsCount := s.dnsCount + 1 }, .store)
  | .store => ({ s with addrCached := true }, .unlock)
  | .unlock => ({ s with lockHeld := false }, .done)
  | .done => (s, .done)

/-- The two tasks over the shared state. -/
structure Conn2 where
  sh : Shared
  pc1 : PC
  pc2 : PC
deriving DecidableEq

/-- Scheduler step: `true` runs task 1, `false` runs task 2. -/
def stepConn2 (c : Conn2) (who : Bool) : Conn2 :=
  if who then
    let p := stepTask c.sh c.pc1
    { c with sh := p.1, pc1 := p.2 }
  else
    let p := stepTask c.sh c.pc2
    { c with sh := p.1, pc2 := p.2 }

/-- Both connections start cold: nothing cached, lock free, counters 0. -/
def initConn2 : Conn2 := ⟨⟨false, false, false, 0, 0⟩, .certCheck, .certCheck⟩

/-- Execution of the two tasks under an arbitrary finite schedule. -/
def runConn2 (sched : List Bool) : Conn2 := sched.foldl stepConn2 initConn2

/-- The resolve-and-dial critical section guarded by the per-host lock
(main.go lines 189-217). -/
def inCS (pc : PC) : Bool :=
  match pc with
  | .cacheCheck | .resolve | .store | .unlock => true
  | _ => false

/-- A task that has not yet passed the certificate phase. -/
def preMint (pc : PC) : Bool :=
  match pc with
  | .certCheck | .mint => true
  | _ => false

/-- Inductive invariant of the two-task system. -/
def Inv (c : Conn2) : Prop :=
  c.sh.lockHeld = (inCS c.pc1 || inCS c.pc2)
  ∧ (inCS c.pc1 = false ∨ inCS c.pc2 = false)
  ∧ ((c.pc1 = .resolve ∨ c.pc1 = .store) → c.sh.addrCached = false)
  ∧ ((c.pc2 = .resolve ∨ c.pc2 = .store) → c.sh.addrCached = false)
  ∧ ((c.pc1 = .unlock ∨ c.pc1 = .done) → c.sh.addrCached = true)
  ∧ ((c.pc2 = .unlock ∨ c.pc2 = .done) → c.sh.addrCached = true)
  ∧ (preMint c.pc1 = false → c.sh.certCached = true)
  ∧ (preMint c.pc2 = false → c.sh.certCached = true)
  ∧ (c.sh.certCached = true → 1 ≤ c.sh.mintCount)
  ∧ c.sh.dnsCount =
      (if c.sh.addrCached || c.pc1 = .store || c.pc2 = .store then 1 else 0)
  ∧ c.sh.mintCount + (if preMint c.pc1 then 1 else 0)
      + (if preMint c.pc2 then 1 else 0) ≤ 2

theorem inv_init : Inv initConn2 := by
  unfold Inv initConn2
  refine ⟨rfl, Or.inl rfl, ?_, ?_, ?_, ?_, ?_, ?_, ?_, rfl, ?_⟩ <;> decide

set_option maxHeartbeats 3200000 in
theorem inv_step (c : Conn2) (who : Bool) (h : Inv c) :
    Inv (stepConn2 c who) := by
  obtain ⟨⟨lockHeld, certCached, addrCached, mintCount, dnsCount⟩,
    pc1, pc2⟩ := c
  obtain ⟨h1, h2, h3, h4, h5, h6, h7, h8, h9, h10, h11⟩ := h
  cases who <;> cases pc1 <;> cases pc2 <;>
    cases lockHeld <;> cases certCached <;> cases addrCached <;>
    simp_all [stepConn2, stepTask, Inv, inCS, preMint] <;> omega

theorem inv_run (sched : List Bool) : Inv (runConn2 sched) := by
  unfold runConn2
  have h : ∀ (c : Conn2), Inv c → Inv (sched.foldl stepConn2 c) := by
    induction sched with
    | nil => intro c hc; exact hc
    | cons b bs ih =>
      intro c hc
      exact ih _ (inv_step c b hc)
  exact h initConn2 inv_init

/-- C3 counterexample: there is an interleaving of two concurrent
cold-cache connections to the same host under which **both** handshakes
miss the certificate cache before either stores, so the run completes with
two certificate mints — not the "exactly one certificate mint" the claim
states.  (The final state also shows the single DNS resolution and the
released lock.) -/
theorem conn2_double_mint_cex :
    runConn2 [true, false, true, false, true, true, true, true, true,
      false, false, false] =
      ⟨⟨false, true, true, 2, 1⟩, .done, .done⟩ := by decide

/-- C3 (amended): under every schedule the two connections serialize on the
per-host resolve lock — they are never simultaneously inside the
resolve-and-dial critical section, so at most one resolution is in flight
at any time — and whenever both connections complete, exactly one outbound
DNS resolution has happened; the certificate mint, however, is **not**
performed under the lock, so between one and two mints occur (two exactly
when both handshakes miss the cert cache before either stores). -/
theorem conn2_serialization (sched : List Bool) :
    ¬(inCS (runConn2 sched).pc1 = true ∧ inCS (runConn2 sched).pc2 = true)
    ∧ ((runConn2 sched).pc1 = .done → (runConn2 sched).pc2 = .done →
        (runConn2 sched).sh.dnsCount = 1 ∧
        1 ≤ (runConn2 sched).sh.mintCount ∧
        (runConn2 sched).sh.mintCount ≤ 2) := by
  obtain ⟨h1, h2, h3, h4, h5, h6, h7, h8, h9, h10, h11⟩ := inv_run sched
  constructor
  · rintro ⟨ha, hb⟩
    rcases h2 with h | h
    · rw [h] at ha; exact Bool.false_ne_true ha
    · rw [h] at hb; exact Bool.false_ne_true hb
  · intro hd1 hd2
    have haddr : (runConn2 sched).sh.addrCached = true := h5 (Or.inr hd1)
    have hcert : (runConn2 sched).sh.certCached = true := by
      apply h7
      rw [hd1]; rfl
    refine ⟨?_, h9 hcert, ?_⟩
    · rw [h10, haddr]
      simp
    · rw [hd1, hd2] at h11
      simpa using h11

/-- C3 amended-claim witness: a schedule under which both tasks finish —
task 1 runs to completion, then task 2 — observing one resolution and (in
this interleaving) one mint. -/
theorem conn2_serialization_witness :
    (runConn2 [true, true, true, true, true, true, true,
      false, false, false, false]).sh.dnsCount = 1 ∧
    1 ≤ (runConn2 [true, true, true, true, true, true, true,
      false, false, false, false]).sh.mintCount ∧
    (runConn2 [true, true, true, true, true, true, true,
      false, false, false, false]).sh.mintCount ≤ 2 :=
  (conn2_serialization [true, true, true, true, true, true, true,
    false, false, false, false]).2 (by decide) (by decide)

end SNIProxy
